import Mathlib

/-!
Verification development for the p256 ECDSA verification and recoverable
signature code (src/p256/src/ecdsa/verify.rs and
src/p256/src/ecdsa/recoverable.rs).

The protocol logic is translated from the Rust source.  The low level
field and group arithmetic (modular inversion, point decompression,
two-term linear combination, big integer reduction) is an external
collaborator of that code; it is modelled here from the specification,
concretely over the NIST P-256 curve parameters, with Jacobian
coordinates for the projective point type and Fermat exponentiation for
modular inversion.  Machine integers are modelled as Nat with explicit
reductions; fallible operations return Option, where none stands for
the single opaque error value of the Rust code.
-/

namespace P256

/-- Modelled from the spec: the field prime of the NIST P-256 curve. -/
def p : Nat := 0xffffffff00000001000000000000000000000000ffffffffffffffffffffffff

/-- Modelled from the spec: the group order of the NIST P-256 curve. -/
def n : Nat := 0xffffffff00000000ffffffffffffffffbce6faada7179e84f3b9cac2fc632551

/-- Modelled from the spec: the curve coefficient a of P-256, which is -3 mod p. -/
def aCoef : Nat := p - 3

/-- Modelled from the spec: the curve coefficient b of P-256. -/
def bCoef : Nat := 0x5ac635d8aa3a93e7b3ebbd55769886bc651d06b0cc53b0f63bce3c3e27d2604b

/-- Modelled from the spec: x coordinate of the base point G. -/
def gX : Nat := 0x6b17d1f2e12c4247f8bce6e563a440f277037d812deb33a0f4a13945d898c296

/-- Modelled from the spec: y coordinate of the base point G. -/
def gY : Nat := 0x4fe342e2fe1a7f9b8ee7eb4a7c0f9e162bce33576b315ececbb6406837bf51f5

instance : NeZero n := ⟨by decide⟩

/-- Modelled from the spec: binary modular exponentiation, fuel recursive so
that the kernel can evaluate it.  The fuel bounds the number of binary
digits of the exponent that are processed. -/
def powModAux : Nat → Nat → Nat → Nat → Nat
  | 0, _, _, m => 1 % m
  | fuel + 1, base, e, m =>
    if e = 0 then 1 % m
    else
      let h := powModAux fuel (base * base % m) (e / 2) m
      if e % 2 = 1 then h * base % m else h

/-- Modelled from the spec: modular exponentiation with enough fuel for
any exponent below 2 ^ 300. -/
def powMod (base e m : Nat) : Nat := powModAux 300 (base % m) e m

/-- Modelled from the spec: modular inversion by Fermat exponentiation,
as provided by the external arithmetic library. -/
def invMod (x m : Nat) : Nat := powMod x (m - 2) m

/-- Affine curve point: the point at infinity or a coordinate pair.
Models AffinePoint of the arithmetic provider. -/
inductive Point where
  | inf : Point
  | aff (x y : Nat) : Point
deriving DecidableEq, Repr

/-- Modelled from the spec: projective (Jacobian) point of the arithmetic
provider.  A point with z = 0 is the identity. -/
structure Jac where
  x : Nat
  y : Nat
  z : Nat
deriving DecidableEq, Repr

/-- The projective identity element. -/
def infJ : Jac := ⟨1, 1, 0⟩

/-- Modelled from the spec: Jacobian point doubling for P-256. -/
def jDbl (a : Jac) : Jac :=
  let ys := a.y * a.y % p
  let s := 4 * a.x * ys % p
  let z2 := a.z * a.z % p
  let z4 := z2 * z2 % p
  let m := (3 * (a.x * a.x % p) + aCoef * z4) % p
  let x3 := (m * m % p + 2 * p - 2 * s) % p
  let y3 := (m * ((s + p - x3) % p) % p + p - 8 * (ys * ys % p) % p) % p
  let z3 := 2 * a.y * a.z % p
  ⟨x3, y3, z3⟩

/-- Modelled from the spec: Jacobian point addition for P-256,
with the identity and doubling cases handled explicitly. -/
def jAdd (a b : Jac) : Jac :=
  if a.z % p = 0 then b
  else if b.z % p = 0 then a
  else
    let z1z1 := a.z * a.z % p
    let z2z2 := b.z * b.z % p
    let u1 := a.x * z2z2 % p
    let u2 := b.x * z1z1 % p
    let s1 := a.y * (z2z2 * b.z % p) % p
    let s2 := b.y * (z1z1 * a.z % p) % p
    if u1 = u2 then
      if s1 = s2 then jDbl a else infJ
    else
      let h := (u2 + p - u1) % p
      let rr := (s2 + p - s1) % p
      let h2 := h * h % p
      let h3 := h2 * h % p
      let u1h2 := u1 * h2 % p
      let x3 := (rr * rr % p + 3 * p - h3 - 2 * u1h2) % p
      let y3 := (rr * ((u1h2 + p - x3) % p) % p + p - s1 * h3 % p) % p
      let z3 := h * (a.z * b.z % p) % p
      ⟨x3, y3, z3⟩

/-- Modelled from the spec: binary double-and-add scalar multiplication,
fuel recursive so that the kernel can evaluate it.  The branch on the
coordinate sum is an evaluation strictness device: both branches are
identical, so it does not affect the value, but deciding the condition
forces the intermediate coordinates to numerals so that evaluating the
loop needs only constant stack depth per iteration. -/
def smulAux : Nat → Nat → Jac → Jac → Jac
  | 0, _, _, acc => acc
  | fuel + 1, k, base, acc =>
    if k = 0 then acc
    else
      let acc2 := if k % 2 = 1 then jAdd acc base else acc
      let base2 := jDbl base
      if base2.x + base2.y + base2.z + acc2.x + acc2.y + acc2.z = 0 then
        smulAux fuel (k / 2) base2 acc2
      else
        smulAux fuel (k / 2) base2 acc2

/-- Modelled from the spec: scalar multiplication of a Jacobian point. -/
def smul (k : Nat) (q : Jac) : Jac := smulAux 300 k q infJ

/-- Modelled from the spec: conversion of an affine point to projective
form (the From impl between AffinePoint and ProjectivePoint). -/
def ofAffine : Point → Jac
  | .inf => infJ
  | .aff x y => ⟨x % p, y % p, 1⟩

/-- Modelled from the spec: the to_affine conversion of the arithmetic
provider.  The projective identity maps to the affine identity. -/
def toAffine (a : Jac) : Point :=
  let zr := a.z % p
  if zr = 0 then .inf
  else
    let zi := invMod zr p
    let zi2 := zi * zi % p
    let zi3 := zi2 * zi % p
    .aff (a.x * zi2 % p) (a.y * zi3 % p)

/-- Modelled from the spec: the two-term linear combination
ProjectivePoint lincomb(x, k, y, l) = k * x + l * y of the arithmetic
provider, with the argument order of the Rust trait method. -/
def lincomb (p1 : Point) (u1 : Nat) (p2 : Point) (u2 : Nat) : Jac :=
  jAdd (smul u1 (ofAffine p1)) (smul u2 (ofAffine p2))

/-- The base point G of P-256 in affine form. -/
def pG : Point := .aff gX gY

/-- The x coordinate read off an affine point.  The p256 code maps the
projective identity to the affine identity point whose stored x field
is the zero field element, so the identity contributes 0 here. -/
def affineX : Point → Nat
  | .inf => 0
  | .aff x _ => x

/-- Affine negation of a point; the x coordinate is unchanged. -/
def pNegAff : Point → Point
  | .inf => .inf
  | .aff x y => .aff x ((p - y) % p)

/-- Modelled from the spec: point decompression of the arithmetic
provider (DecompressPoint for AffinePoint).  Given an x coordinate and
the desired parity of y, it returns the curve point when the cubic has
a square root mod p and fails otherwise.  The square root is computed
as alpha ^ ((p + 1) / 4) because p = 3 mod 4. -/
def decompress (x : Nat) (yOdd : Bool) : Option Point :=
  if x < p then
    let alpha := (x * x % p * x + aCoef * x + bCoef) % p
    let beta := powMod alpha ((p + 1) / 4) p
    if beta * beta % p = alpha then
      let y := if (decide (beta % 2 = 1)) = yOdd then beta else (p - beta) % p
      some (.aff x y)
    else none
  else none

/-- Big-endian interpretation of a byte list as an integer. -/
def bytesToNat (bs : List Nat) : Nat := bs.foldl (fun acc d => acc * 256 + d) 0

/-- Big-endian encoding of an integer into a fixed number of bytes. -/
def natToBytes : Nat → Nat → List Nat
  | 0, _ => []
  | k + 1, v => natToBytes k (v / 256) ++ [v % 256]

/-- Modelled from the spec: the plain fixed-size ECDSA signature, a pair
(r, s); the ecdsa-core Signature type instantiated at P-256. -/
structure Signature where
  r : Nat
  s : Nat
deriving DecidableEq, Repr

/-- Modelled from the spec: the 64 byte encoding r (32 bytes big endian)
followed by s (32 bytes big endian). -/
def Signature.encode (sig : Signature) : List Nat :=
  natToBytes 32 sig.r ++ natToBytes 32 sig.s

/-- Modelled from the spec: decoding a 64 byte plain signature.  Fails
unless the input is exactly 64 bytes and both halves are non-zero
scalars below the group order. -/
def Signature.try_from (bytes : List Nat) : Option Signature :=
  if bytes.length = 64 then
    if 0 < bytesToNat (bytes.take 32) ∧ bytesToNat (bytes.take 32) < n ∧
        0 < bytesToNat (bytes.drop 32) ∧ bytesToNat (bytes.drop 32) < n
    then some ⟨bytesToNat (bytes.take 32), bytesToNat (bytes.drop 32)⟩
    else none
  else none

/-- Modelled from the spec: normalize_s of ecdsa-core.  Returns the
low-half signature when s is in the upper half of the scalar range and
none when the signature was already normalized. -/
def Signature.normalize_s (sig : Signature) : Option Signature :=
  if 2 * sig.s > n then some ⟨sig.r, n - sig.s⟩ else none

/-- Modelled from the spec: scalar inversion of a non-zero scalar
(NonZeroScalar invert, a CtOption that is populated exactly when the
value is a non-zero residue). -/
def invScalar (x : Nat) : Option Nat :=
  if x % n = 0 then none else some (invMod x n)

/-- ECDSA/P-256 verification key wrapping a curve point
(verify.rs line 43). -/
structure VerifyingKey where
  point : Point
deriving DecidableEq, Repr

/-- From AffinePoint for VerifyingKey (verify.rs lines 149-153): the
affine point is re-encoded and parsed through from_encoded_point, which
rejects the identity; the Rust code unwraps that result, so the
identity input is the panic branch, modelled as none. -/
def VerifyingKey.from_affine (q : Point) : Option VerifyingKey :=
  match q with
  | .inf => none
  | .aff x y => some ⟨.aff x y⟩

/-- VerifyPrimitive verify_prehashed (verify.rs lines 98-121).  The
scalar z is the already reduced digest.  The boolean true models Ok(())
and false models Err(VerificationFailed). -/
def verify_prehashed (self : Point) (z : Nat) (signature : Signature) : Bool :=
  let s_inv := invMod signature.s n
  let u1 := z * s_inv % n
  let u2 := signature.r * s_inv % n
  let x := affineX (toAffine (lincomb pG u1 self u2))
  decide (x % n = signature.r)

/-- DigestVerifier verify_digest (verify.rs lines 79-86 through
ecdsa-core): the 32 byte digest value is reduced mod the group order
and passed to verify_prehashed. -/
def verify_digest (key : VerifyingKey) (digest : Nat) (signature : Signature) : Bool :=
  verify_prehashed key.point (digest % n) signature

/-- Recovery Id (recoverable.rs line 275). -/
structure Id where
  val : Nat
deriving DecidableEq, Repr

/-- Id new (recoverable.rs lines 279-284): only bytes 0 and 1 are
accepted. -/
def Id.new (byte : Nat) : Option Id :=
  if byte = 0 ∨ byte = 1 then some ⟨byte⟩ else none

/-- Id is_y_odd (recoverable.rs lines 287-289): the byte converted to a
Choice, which is truthy exactly on non-zero bytes. -/
def Id.is_y_odd (id : Id) : Bool := id.val != 0

/-- Modelled from the spec: the generic ecdsa-core RecoveryId carrying
an x-reduced flag and a y-parity flag. -/
structure RecoveryId where
  x_reduced : Bool
  y_odd : Bool
deriving DecidableEq, Repr

/-- Modelled from the spec: RecoveryId is_x_reduced accessor. -/
def RecoveryId.is_x_reduced (id : RecoveryId) : Bool := id.x_reduced

/-- Modelled from the spec: RecoveryId is_y_odd accessor. -/
def RecoveryId.is_y_odd (id : RecoveryId) : Bool := id.y_odd

/-- Modelled from the spec: RecoveryId new(is_y_odd, is_x_reduced). -/
def RecoveryId.new (yOdd xReduced : Bool) : RecoveryId := ⟨xReduced, yOdd⟩

/-- TryFrom RecoveryId for Id (recoverable.rs lines 306-318). -/
def Id.try_from_recovery_id (id : RecoveryId) : Option Id :=
  if id.is_x_reduced then none
  else if id.is_y_odd then some ⟨1⟩
  else some ⟨0⟩

/-- From Id for RecoveryId (recoverable.rs lines 320-324). -/
def Id.to_recovery_id (id : Id) : RecoveryId :=
  RecoveryId.new id.is_y_odd false

/-- Ethereum-style recoverable signature: 65 stored bytes
(recoverable.rs lines 72-75). -/
structure RecSignature where
  bytes : List Nat
deriving DecidableEq, Repr

/-- Signature new (recoverable.rs lines 83-88): the 64 byte encoding of
the plain signature followed by the recovery id byte.  The Rust
function returns Result but never fails. -/
def RecSignature.new (signature : Signature) (recovery_id : Id) : RecSignature :=
  ⟨signature.encode ++ [recovery_id.val]⟩

/-- Signature recovery_id (recoverable.rs lines 91-93): byte 64 parsed
as an Id; the expect branch on an invalid byte is modelled as none. -/
def RecSignature.recovery_id (sig : RecSignature) : Option Id :=
  Id.new (sig.bytes.getD 64 0)

/-- Signature r (recoverable.rs lines 196-199): the first 32 bytes
parsed as a non-zero scalar; the expect branch is modelled as none. -/
def RecSignature.r (sig : RecSignature) : Option Nat :=
  if (sig.bytes.take 32).length = 32 ∧ 0 < bytesToNat (sig.bytes.take 32) ∧
      bytesToNat (sig.bytes.take 32) < n
  then some (bytesToNat (sig.bytes.take 32))
  else none

/-- Signature s (recoverable.rs lines 204-207): bytes 32 to 63 parsed
as a non-zero scalar; the expect branch is modelled as none. -/
def RecSignature.s (sig : RecSignature) : Option Nat :=
  if ((sig.bytes.drop 32).take 32).length = 32 ∧
      0 < bytesToNat ((sig.bytes.drop 32).take 32) ∧
      bytesToNat ((sig.bytes.drop 32).take 32) < n
  then some (bytesToNat ((sig.bytes.drop 32).take 32))
  else none

/-- TryFrom byte slice for Signature (recoverable.rs lines 238-250):
exactly 65 bytes, the first 64 as a plain signature, byte 64 as an Id. -/
def RecSignature.try_from (bytes : List Nat) : Option RecSignature :=
  if bytes.length = 65 then
    match Signature.try_from (bytes.take 64) with
    | none => none
    | some signature =>
      match Id.new (bytes.getD 64 0) with
      | none => none
      | some recovery_id => some (RecSignature.new signature recovery_id)
  else none

/-- From Signature for the plain signature (recoverable.rs lines
252-256): the first 64 bytes re-parsed; the unwrap branch is modelled
as none. -/
def RecSignature.toPlain (sig : RecSignature) : Option Signature :=
  Signature.try_from (sig.bytes.take 64)

/-- The core of recover_verify_key_from_digest_bytes (recoverable.rs
lines 170-191) after the r, s and recovery id accessors have been
read: decompression of R from r and the parity bit, then the linear
combination u1 * G + u2 * R with u1 = -(r_inv * z) and u2 = r_inv * s,
wrapped as a VerifyingKey. -/
def recoverCore (r s : Nat) (yOdd : Bool) (digest : Nat) : Option VerifyingKey :=
  let z := digest % n
  match decompress r yOdd with
  | none => none
  | some bigR =>
    let r_inv := invMod r n
    let u1 := (n - r_inv * z % n) % n
    let u2 := r_inv * s % n
    VerifyingKey.from_affine (toAffine (lincomb pG u1 bigR u2))

/-- Signature recover_verify_key_from_digest_bytes (recoverable.rs
lines 170-191).  The accessor expect branches are modelled as none. -/
def RecSignature.recover_verify_key_from_digest_bytes
    (sig : RecSignature) (digest : Nat) : Option VerifyingKey :=
  match sig.r, sig.s, sig.recovery_id with
  | some r, some s, some id => recoverCore r s id.is_y_odd digest
  | _, _, _ => none

/-- One iteration of the trial recovery loop (recoverable.rs lines
128-140): build the recoverable signature for the given id byte,
recover a key from it, and accept when the recovered key equals the
candidate and the candidate verifies the plain signature. -/
def tryRecoveryId (public_key : VerifyingKey) (digest : Nat)
    (signature : Signature) (v : Nat) : Option RecSignature :=
  let rsig := RecSignature.new signature ⟨v⟩
  match rsig.recover_verify_key_from_digest_bytes digest with
  | none => none
  | some recovered_key =>
    if public_key = recovered_key ∧ verify_digest public_key digest signature = true
    then some rsig
    else none

/-- Signature from_digest_trial_recovery (recoverable.rs lines
118-143): normalize s to the low half, then try recovery ids 0 and 1
in order; none models Err(Error new), the NoValidRecoveryId outcome. -/
def RecSignature.from_digest_trial_recovery (public_key : VerifyingKey)
    (digest : Nat) (signature : Signature) : Option RecSignature :=
  let signature := (signature.normalize_s).getD signature
  match tryRecoveryId public_key digest signature 0 with
  | some rsig => some rsig
  | none =>
    match tryRecoveryId public_key digest signature 1 with
    | some rsig => some rsig
    | none => none

/-- The invariant maintained by every successfully constructed
recoverable signature: 65 stored bytes, each 32 byte half a non-zero
in-range scalar, and the trailing byte a valid recovery id. -/
def RecSigValid (sig : RecSignature) : Prop :=
  sig.bytes.length = 65 ∧
  0 < bytesToNat (sig.bytes.take 32) ∧ bytesToNat (sig.bytes.take 32) < n ∧
  0 < bytesToNat ((sig.bytes.drop 32).take 32) ∧
  bytesToNat ((sig.bytes.drop 32).take 32) < n ∧
  (sig.bytes.getD 64 0 = 0 ∨ sig.bytes.getD 64 0 = 1)

instance (sig : RecSignature) : Decidable (RecSigValid sig) := by
  unfold RecSigValid; infer_instance

/-! ## Helper lemmas about the byte level -/

lemma natToBytes_length (k : Nat) : ∀ v : Nat, (natToBytes k v).length = k := by
  induction k with
  | zero => intro v; rfl
  | succ k ih => intro v; simp [natToBytes, ih]

lemma bytesToNat_append_single (bs : List Nat) (d : Nat) :
    bytesToNat (bs ++ [d]) = bytesToNat bs * 256 + d := by
  simp [bytesToNat, List.foldl_append]

lemma bytesToNat_natToBytes (k : Nat) :
    ∀ v : Nat, v < 256 ^ k → bytesToNat (natToBytes k v) = v := by
  induction k with
  | zero =>
    intro v hv
    interval_cases v
    rfl
  | succ k ih =>
    intro v hv
    rw [natToBytes, bytesToNat_append_single, ih (v / 256) ?_]
    · omega
    · have h2 : v < 256 * 256 ^ k := by rw [mul_comm, ← pow_succ]; exact hv
      exact Nat.div_lt_of_lt_mul h2

lemma take_append_of_length {l1 l2 : List Nat} {k : Nat} (h : l1.length = k) :
    (l1 ++ l2).take k = l1 := by
  subst h; exact List.take_left l1 l2

lemma drop_append_of_length {l1 l2 : List Nat} {k : Nat} (h : l1.length = k) :
    (l1 ++ l2).drop k = l2 := by
  subst h; exact List.drop_left l1 l2

lemma getD_append_of_length {l1 : List Nat} {v k d : Nat} (h : l1.length = k) :
    (l1 ++ [v]).getD k d = v := by
  subst h
  simp [List.getD_eq_getElem?_getD, List.getElem?_append_right (Nat.le_refl l1.length)]

lemma n_lt_pow : n < 256 ^ 32 := by decide

lemma encode_length (sig : Signature) : sig.encode.length = 64 := by
  simp [Signature.encode, natToBytes_length]

lemma try_from_encode (sig : Signature) (hr0 : 0 < sig.r) (hrn : sig.r < n)
    (hs0 : 0 < sig.s) (hsn : sig.s < n) :
    Signature.try_from sig.encode = some sig := by
  obtain ⟨rv, sv⟩ := sig
  unfold Signature.try_from Signature.encode
  rw [if_pos (by simp [natToBytes_length] :
    (natToBytes 32 rv ++ natToBytes 32 sv).length = 64)]
  rw [take_append_of_length (natToBytes_length 32 rv),
    drop_append_of_length (natToBytes_length 32 rv),
    bytesToNat_natToBytes 32 rv (lt_trans hrn n_lt_pow),
    bytesToNat_natToBytes 32 sv (lt_trans hsn n_lt_pow)]
  rw [if_pos ⟨hr0, hrn, hs0, hsn⟩]

lemma new_bytes (sig : Signature) (id : Id) :
    (RecSignature.new sig id).bytes =
      natToBytes 32 sig.r ++ (natToBytes 32 sig.s ++ [id.val]) := by
  simp [RecSignature.new, Signature.encode]

lemma new_take_64 (sig : Signature) (id : Id) :
    ((RecSignature.new sig id).bytes.take 64) = sig.encode := by
  have h : (RecSignature.new sig id).bytes = sig.encode ++ [id.val] := rfl
  rw [h, take_append_of_length (encode_length sig)]

lemma r_new (sig : Signature) (id : Id) (hr0 : 0 < sig.r) (hrn : sig.r < n) :
    (RecSignature.new sig id).r = some sig.r := by
  rw [RecSignature.r, new_bytes,
    take_append_of_length (natToBytes_length 32 sig.r),
    bytesToNat_natToBytes 32 sig.r (lt_trans hrn n_lt_pow)]
  rw [if_pos ⟨natToBytes_length 32 sig.r, hr0, hrn⟩]

lemma s_new (sig : Signature) (id : Id) (hs0 : 0 < sig.s) (hsn : sig.s < n) :
    (RecSignature.new sig id).s = some sig.s := by
  rw [RecSignature.s, new_bytes,
    drop_append_of_length (natToBytes_length 32 sig.r),
    take_append_of_length (natToBytes_length 32 sig.s),
    bytesToNat_natToBytes 32 sig.s (lt_trans hsn n_lt_pow)]
  rw [if_pos ⟨natToBytes_length 32 sig.s, hs0, hsn⟩]

lemma getD_new (sig : Signature) (id : Id) :
    (RecSignature.new sig id).bytes.getD 64 0 = id.val := by
  have h : (RecSignature.new sig id).bytes = sig.encode ++ [id.val] := rfl
  rw [h, getD_append_of_length (encode_length sig)]

lemma recovery_id_new (sig : Signature) (id : Id) (hv : id.val = 0 ∨ id.val = 1) :
    (RecSignature.new sig id).recovery_id = some id := by
  obtain ⟨v⟩ := id
  rw [RecSignature.recovery_id, getD_new, Id.new, if_pos hv]

lemma id_new_isSome (b : Nat) : (Id.new b).isSome ↔ (b = 0 ∨ b = 1) := by
  by_cases h : b = 0 ∨ b = 1 <;> simp [Id.new, h]

lemma id_new_inv {b : Nat} {id : Id} (h : Id.new b = some id) :
    id.val = b ∧ (b = 0 ∨ b = 1) := by
  unfold Id.new at h
  split at h
  · cases h; exact ⟨rfl, by assumption⟩
  · cases h

lemma sig_try_from_inv {bs : List Nat} {sig : Signature}
    (h : Signature.try_from bs = some sig) :
    0 < sig.r ∧ sig.r < n ∧ 0 < sig.s ∧ sig.s < n := by
  unfold Signature.try_from at h
  split at h
  · split at h
    · cases h
      assumption
    · cases h
  · cases h

lemma rec_new_length (sig : Signature) (id : Id) :
    (RecSignature.new sig id).bytes.length = 65 := by
  have h : (RecSignature.new sig id).bytes = sig.encode ++ [id.val] := rfl
  rw [h, List.length_append, encode_length]
  rfl

lemma rec_try_from_new (rv sv v : Nat) (hr0 : 0 < rv) (hrn : rv < n)
    (hs0 : 0 < sv) (hsn : sv < n) (hv : v = 0 ∨ v = 1) :
    RecSignature.try_from (RecSignature.new ⟨rv, sv⟩ ⟨v⟩).bytes =
      some (RecSignature.new ⟨rv, sv⟩ ⟨v⟩) := by
  unfold RecSignature.try_from
  rw [if_pos (rec_new_length ⟨rv, sv⟩ ⟨v⟩)]
  rw [new_take_64, try_from_encode ⟨rv, sv⟩ hr0 hrn hs0 hsn, getD_new, Id.new, if_pos hv]

lemma rec_try_from_inv {bytes : List Nat} {x : RecSignature}
    (h : RecSignature.try_from bytes = some x) :
    ∃ rv sv v, x = RecSignature.new ⟨rv, sv⟩ ⟨v⟩ ∧
      0 < rv ∧ rv < n ∧ 0 < sv ∧ sv < n ∧ (v = 0 ∨ v = 1) := by
  unfold RecSignature.try_from at h
  split at h
  · cases hsig : Signature.try_from (bytes.take 64) with
    | none => rw [hsig] at h; cases h
    | some sig =>
      rw [hsig] at h
      cases hid : Id.new (bytes.getD 64 0) with
      | none => rw [hid] at h; cases h
      | some id =>
        rw [hid] at h
        injection h with h2
        obtain ⟨h1, hb2, h3, h4⟩ := sig_try_from_inv hsig
        obtain ⟨hv1, hv2⟩ := id_new_inv hid
        exact ⟨sig.r, sig.s, id.val, h2.symm, h1, hb2, h3, h4, hv1 ▸ hv2⟩
  · cases h

lemma rec_new_valid (rv sv v : Nat) (hr0 : 0 < rv) (hrn : rv < n)
    (hs0 : 0 < sv) (hsn : sv < n) (hv : v = 0 ∨ v = 1) :
    RecSigValid (RecSignature.new ⟨rv, sv⟩ ⟨v⟩) := by
  unfold RecSigValid
  rw [new_bytes, take_append_of_length (natToBytes_length 32 rv),
    drop_append_of_length (natToBytes_length 32 rv),
    take_append_of_length (natToBytes_length 32 sv)]
  have hg : (natToBytes 32 rv ++ (natToBytes 32 sv ++ [v])).getD 64 0 = v := by
    rw [← List.append_assoc]
    exact getD_append_of_length (by simp [natToBytes_length])
  rw [hg, bytesToNat_natToBytes 32 rv (lt_trans hrn n_lt_pow),
    bytesToNat_natToBytes 32 sv (lt_trans hsn n_lt_pow)]
  refine ⟨by simp [natToBytes_length], hr0, hrn, hs0, hsn, hv⟩

lemma tryRecoveryId_eq (pk : VerifyingKey) (digest : Nat) (sig : Signature) (v : Nat) :
    tryRecoveryId pk digest sig v =
      if (RecSignature.new sig ⟨v⟩).recover_verify_key_from_digest_bytes digest = some pk
          ∧ verify_digest pk digest sig = true
      then some (RecSignature.new sig ⟨v⟩) else none := by
  unfold tryRecoveryId
  simp only []
  rcases h : (RecSignature.new sig ⟨v⟩).recover_verify_key_from_digest_bytes digest with _ | k
  · simp
  · by_cases hk : pk = k
    · subst hk
      simp
    · simp [hk, Ne.symm hk]

lemma affineX_pNegAff (pt : Point) : affineX (pNegAff pt) = affineX pt := by
  cases pt <;> rfl

/-! ## Arithmetic lemmas about the modelled provider operations -/

lemma powModAux_lt (fuel : Nat) : ∀ b e m : Nat, 0 < m → powModAux fuel b e m < m := by
  induction fuel with
  | zero => intro b e m hm; exact Nat.mod_lt _ hm
  | succ fuel ih =>
    intro b e m hm
    unfold powModAux
    split
    · exact Nat.mod_lt _ hm
    · split
      · exact Nat.mod_lt _ hm
      · exact ih _ _ _ hm

lemma powModAux_cast (fuel : Nat) :
    ∀ b e m : Nat, e < 2 ^ fuel →
      ((powModAux fuel b e m : Nat) : ZMod m) = (b : ZMod m) ^ e := by
  induction fuel with
  | zero =>
    intro b e m he
    interval_cases e
    simp [powModAux, ZMod.natCast_mod]
  | succ fuel ih =>
    intro b e m he
    by_cases he0 : e = 0
    · subst he0; simp [powModAux, ZMod.natCast_mod]
    · have hdiv : e / 2 < 2 ^ fuel := by
        have h2 : e < 2 ^ fuel * 2 := by rw [← pow_succ]; exact he
        omega
      have hrec := ih (b * b % m) (e / 2) m hdiv
      rw [ZMod.natCast_mod] at hrec
      push_cast at hrec
      unfold powModAux
      rw [if_neg he0]
      by_cases hpar : e % 2 = 1
      · rw [if_pos hpar, ZMod.natCast_mod]
        push_cast
        rw [hrec, ← pow_two, ← pow_mul, ← pow_succ]
        congr 1
        omega
      · rw [if_neg hpar, hrec, ← pow_two, ← pow_mul]
        congr 1
        omega

lemma powMod_cast (b e m : Nat) (he : e < 2 ^ 300) :
    ((powMod b e m : Nat) : ZMod m) = (b : ZMod m) ^ e := by
  unfold powMod
  rw [powModAux_cast 300 _ _ _ he, ZMod.natCast_mod]

lemma invMod_neg_cast (sv : Nat) (hsn : sv < n) :
    ((invMod (n - sv) n : Nat) : ZMod n) = -((invMod sv n : Nat) : ZMod n) := by
  have hexp : n - 2 < 2 ^ 300 := by decide
  unfold invMod
  rw [powMod_cast _ _ _ hexp, powMod_cast _ _ _ hexp]
  have hcast : ((n - sv : Nat) : ZMod n) = -(sv : ZMod n) := by
    rw [Nat.cast_sub (le_of_lt hsn), ZMod.natCast_self, zero_sub]
  have hodd : Odd (n - 2) := by
    rw [Nat.odd_iff]
    decide
  rw [hcast, hodd.neg_pow]

lemma cast_inj_of_lt {a c : Nat} (ha : a < n) (hc : c < n)
    (h : (a : ZMod n) = (c : ZMod n)) : a = c := by
  have h2 := congrArg ZMod.val h
  rw [ZMod.val_cast_of_lt ha, ZMod.val_cast_of_lt hc] at h2
  exact h2

lemma mul_invMod_sub (zv sv : Nat) (hsn : sv < n) :
    zv * invMod (n - sv) n % n = (n - zv * invMod sv n % n) % n := by
  have hnpos : 0 < n := by decide
  apply cast_inj_of_lt (Nat.mod_lt _ hnpos) (Nat.mod_lt _ hnpos)
  have hw : zv * invMod sv n % n < n := Nat.mod_lt _ hnpos
  rw [ZMod.natCast_mod, ZMod.natCast_mod, Nat.cast_sub (le_of_lt hw),
    ZMod.natCast_self, zero_sub, ZMod.natCast_mod]
  push_cast
  rw [invMod_neg_cast sv hsn]
  ring

lemma from_affine_some {q : Point} {vk : VerifyingKey}
    (h : VerifyingKey.from_affine q = some vk) : vk.point ≠ Point.inf := by
  cases q with
  | inf => cases h
  | aff x y =>
    injection h with h2
    rw [← h2]
    intro hc
    cases hc

/-! ## The claims -/

/-- Claim C1: for every public key Q, 32-byte prehash z and signature
(r, s) with non-zero scalar components, verification succeeds if and
only if the affine x coordinate of u1 * G + u2 * Q, reduced mod the
group order n, equals r, where s_inv = s ^ -1 mod n,
u1 = z * s_inv mod n and u2 = r * s_inv mod n; on mismatch it fails
with VerificationFailed (the false outcome). -/
theorem claim1 (q : Point) (digest rv sv : Nat)
    (hr0 : 0 < rv) (hrn : rv < n) (hs0 : 0 < sv) (hsn : sv < n) :
    verify_digest ⟨q⟩ digest ⟨rv, sv⟩ = true ↔
      affineX (toAffine (lincomb pG (digest * invMod sv n % n) q
        (rv * invMod sv n % n))) % n = rv := by
  have hgoal : verify_digest ⟨q⟩ digest ⟨rv, sv⟩ =
      decide (affineX (toAffine (lincomb pG (digest % n * invMod sv n % n) q
        (rv * invMod sv n % n))) % n = rv) := rfl
  rw [hgoal, Nat.mod_mul_mod]
  exact ⟨of_decide_eq_true, decide_eq_true⟩

/-- Witness for C1 at Q = G, digest 1, r = 1, s = 1. -/
theorem claim1_witness :
    verify_digest ⟨pG⟩ 1 ⟨1, 1⟩ = true ↔
      affineX (toAffine (lincomb pG (1 * invMod 1 n % n) pG
        (1 * invMod 1 n % n))) % n = 1 :=
  claim1 pG 1 1 1 (by decide) (by decide) (by decide) (by decide)

/-- Claim C2: recovery from a recoverable signature (r, s, id) and a
32-byte digest decompresses R from the x coordinate r and the id parity
bit, failing (PointNotOnCurve, the none outcome) when no such curve
point exists; otherwise it returns the VerifyingKey wrapping
u1 * G + u2 * R with u1 = -(r ^ -1 * z) mod n, u2 = r ^ -1 * s mod n
and z the digest reduced mod n, without re-verifying the verification
equation for (r, s). -/
theorem claim2 (rv sv v digest : Nat) (hr0 : 0 < rv) (hrn : rv < n)
    (hs0 : 0 < sv) (hsn : sv < n) (hv : v = 0 ∨ v = 1) :
    (RecSignature.new ⟨rv, sv⟩ ⟨v⟩).recover_verify_key_from_digest_bytes digest =
      match decompress rv (v != 0) with
      | none => none
      | some bigR =>
        VerifyingKey.from_affine (toAffine (lincomb pG
          ((n - invMod rv n * (digest % n) % n) % n) bigR (invMod rv n * sv % n))) := by
  unfold RecSignature.recover_verify_key_from_digest_bytes
  rw [r_new ⟨rv, sv⟩ ⟨v⟩ hr0 hrn, s_new ⟨rv, sv⟩ ⟨v⟩ hs0 hsn,
    recovery_id_new ⟨rv, sv⟩ ⟨v⟩ hv]
  rfl

/-- Witness for C2 at r = 1, s = 1, id 0, digest 0. -/
theorem claim2_witness :
    (RecSignature.new ⟨1, 1⟩ ⟨0⟩).recover_verify_key_from_digest_bytes 0 =
      match decompress 1 ((0 : Nat) != 0) with
      | none => none
      | some bigR =>
        VerifyingKey.from_affine (toAffine (lincomb pG
          ((n - invMod 1 n * (0 % n) % n) % n) bigR (invMod 1 n * 1 % n))) :=
  claim2 1 1 0 0 (by decide) (by decide) (by decide) (by decide) (by decide)

/-- Claim C3: trial recovery first replaces s by n - s when s is in the
upper half of the scalar range, then tries recovery ids 0 and 1 in
order, returning the first recoverable signature whose recovered key
equals the candidate and such that the candidate verifies the
normalized plain signature; if neither id passes both checks the
result is the failure value (NoValidRecoveryId). -/
theorem claim3 (pk : VerifyingKey) (digest rv sv : Nat) :
    RecSignature.from_digest_trial_recovery pk digest ⟨rv, sv⟩ =
      (if (RecSignature.new ⟨rv, if 2 * sv > n then n - sv else sv⟩
            ⟨0⟩).recover_verify_key_from_digest_bytes digest = some pk
          ∧ verify_digest pk digest ⟨rv, if 2 * sv > n then n - sv else sv⟩ = true
      then some (RecSignature.new ⟨rv, if 2 * sv > n then n - sv else sv⟩ ⟨0⟩)
      else if (RecSignature.new ⟨rv, if 2 * sv > n then n - sv else sv⟩
            ⟨1⟩).recover_verify_key_from_digest_bytes digest = some pk
          ∧ verify_digest pk digest ⟨rv, if 2 * sv > n then n - sv else sv⟩ = true
      then some (RecSignature.new ⟨rv, if 2 * sv > n then n - sv else sv⟩ ⟨1⟩)
      else none) := by
  have hnorm : ((⟨rv, sv⟩ : Signature).normalize_s).getD ⟨rv, sv⟩ =
      ⟨rv, if 2 * sv > n then n - sv else sv⟩ := by
    show (if 2 * sv > n then some (⟨rv, n - sv⟩ : Signature) else none).getD ⟨rv, sv⟩ = _
    split <;> rfl
  unfold RecSignature.from_digest_trial_recovery
  simp only []
  rw [hnorm, tryRecoveryId_eq, tryRecoveryId_eq]
  split_ifs <;> simp

/-- Claim C4: if (r, s) verifies then (r, n - s) verifies as well.  The
hypothesis hlin is the instance of the group identity
(-u1) * G + (-u2) * Q = -(u1 * G + u2 * Q) provided by the external
arithmetic library, stated at the affine level. -/
theorem claim4 (q : Point) (z rv sv : Nat) (hs0 : 0 < sv) (hsn : sv < n)
    (hlin : toAffine (lincomb pG ((n - z * invMod sv n % n) % n) q
        ((n - rv * invMod sv n % n) % n)) =
      pNegAff (toAffine (lincomb pG (z * invMod sv n % n) q (rv * invMod sv n % n))))
    (hver : verify_prehashed q z ⟨rv, sv⟩ = true) :
    verify_prehashed q z ⟨rv, n - sv⟩ = true := by
  have h1 : verify_prehashed q z ⟨rv, n - sv⟩ =
      decide (affineX (toAffine (lincomb pG (z * invMod (n - sv) n % n) q
        (rv * invMod (n - sv) n % n))) % n = rv) := rfl
  have h2 : verify_prehashed q z ⟨rv, sv⟩ =
      decide (affineX (toAffine (lincomb pG (z * invMod sv n % n) q
        (rv * invMod sv n % n))) % n = rv) := rfl
  rw [h2] at hver
  rw [h1, mul_invMod_sub z sv hsn, mul_invMod_sub rv sv hsn, hlin, affineX_pNegAff]
  exact hver

set_option maxRecDepth 1000000 in
/-- Witness for C4 at Q = G, z = 0, r = s = Gx: the signature (Gx, Gx)
verifies for the zero prehash under the key G, and so does its
malleated twin (Gx, n - Gx). -/
theorem claim4_witness : verify_prehashed pG 0 ⟨gX, n - gX⟩ = true :=
  claim4 pG 0 gX gX (by decide) (by decide) (by decide) (by decide)

/-- Claim C5: whenever the linear combination step yields the group
identity, verification fails with VerificationFailed (false, not a
panic), and recovery never returns a VerifyingKey wrapping the
identity point. -/
theorem claim5 :
    (∀ (q : Point) (z rv sv : Nat), 0 < rv → rv < n →
      toAffine (lincomb pG (z * invMod sv n % n) q (rv * invMod sv n % n)) = Point.inf →
      verify_prehashed q z ⟨rv, sv⟩ = false) ∧
    (∀ (rv sv : Nat) (yOdd : Bool) (digest : Nat) (vk : VerifyingKey),
      recoverCore rv sv yOdd digest = some vk → vk.point ≠ Point.inf) := by
  constructor
  · intro q z rv sv hr0 hrn hinf
    have hgoal : verify_prehashed q z ⟨rv, sv⟩ =
        decide (affineX (toAffine (lincomb pG (z * invMod sv n % n) q
          (rv * invMod sv n % n))) % n = rv) := rfl
    rw [hgoal, hinf]
    apply decide_eq_false
    simp only [affineX]
    rw [Nat.zero_mod]
    omega
  · intro rv sv yOdd digest vk h
    unfold recoverCore at h
    simp only [] at h
    cases hd : decompress rv yOdd with
    | none => rw [hd] at h; cases h
    | some bigR =>
      rw [hd] at h
      exact from_affine_some h

set_option maxRecDepth 1000000 in
/-- Witness for C5: the combination 1 * G + 1 * (-G) is the identity and
verification of (1, 1) against the key -G and prehash 1 fails; and a
concrete successful recovery returns a key wrapping a finite point. -/
theorem claim5_witness :
    verify_prehashed (Point.aff gX (p - gY)) 1 ⟨1, 1⟩ = false ∧
    (VerifyingKey.mk (Point.aff 5
      0xba6dbc4555a7e7fa016ec431667e8521ee35afc49b265c3accbea3f7cdb70433)).point ≠
      Point.inf :=
  ⟨claim5.1 (Point.aff gX (p - gY)) 1 1 1 (by decide) (by decide) (by decide),
   claim5.2 5 5 true 0 (VerifyingKey.mk (Point.aff 5
     0xba6dbc4555a7e7fa016ec431667e8521ee35afc49b265c3accbea3f7cdb70433))
     (by decide)⟩

/-- Claim C6: constructing a recovery Id from a byte succeeds exactly
for bytes 0 and 1, and converting from the generic x-reduced plus
y-parity representation fails when the x-reduced flag is set and
otherwise yields Id 1 or Id 0 according to the y-parity flag. -/
theorem claim6 :
    (∀ bv : Nat, bv < 256 → ((Id.new bv).isSome = true ↔ (bv = 0 ∨ bv = 1))) ∧
    (∀ rid : RecoveryId,
      Id.try_from_recovery_id rid =
        if rid.is_x_reduced then none
        else if rid.is_y_odd then some ⟨1⟩ else some ⟨0⟩) := by
  constructor
  · intro bv _
    exact id_new_isSome bv
  · intro rid
    rfl

/-- Witness for C6 at byte 2 and at the x-reduced free, y-odd
recovery id. -/
theorem claim6_witness :
    ((Id.new 2).isSome = true ↔ ((2 : Nat) = 0 ∨ (2 : Nat) = 1)) ∧
    (Id.try_from_recovery_id ⟨false, true⟩ =
      if (RecoveryId.mk false true).is_x_reduced then none
      else if (RecoveryId.mk false true).is_y_odd then some ⟨1⟩ else some ⟨0⟩) :=
  ⟨claim6.1 2 (by decide), claim6.2 ⟨false, true⟩⟩

/-- Claim C7: decoding a recoverable signature fails for every input
whose length is not 65 bytes, and for 65 byte inputs succeeds exactly
when the first 64 bytes decode as a valid plain signature and byte 64
is a valid recovery id. -/
theorem claim7 :
    (∀ bytes : List Nat, bytes.length ≠ 65 → RecSignature.try_from bytes = none) ∧
    (∀ bytes : List Nat, bytes.length = 65 →
      ((RecSignature.try_from bytes).isSome = true ↔
        (Signature.try_from (bytes.take 64)).isSome = true ∧
          (bytes.getD 64 0 = 0 ∨ bytes.getD 64 0 = 1))) := by
  constructor
  · intro bytes h
    unfold RecSignature.try_from
    rw [if_neg h]
  · intro bytes h
    unfold RecSignature.try_from
    rw [if_pos h]
    cases hsig : Signature.try_from (bytes.take 64) with
    | none => simp
    | some sig =>
      rw [← id_new_isSome]
      cases hid : Id.new (bytes.getD 64 0) with
      | none => simp
      | some id => simp

/-- Witness for C7 at the empty input and at a valid 65 byte input. -/
theorem claim7_witness :
    RecSignature.try_from [] = none ∧
    ((RecSignature.try_from (List.replicate 31 0 ++ [1] ++
        (List.replicate 31 0 ++ [1]) ++ [0])).isSome = true ↔
      (Signature.try_from ((List.replicate 31 0 ++ [1] ++
        (List.replicate 31 0 ++ [1]) ++ [0]).take 64)).isSome = true ∧
        ((List.replicate 31 0 ++ [1] ++ (List.replicate 31 0 ++ [1]) ++ [0]).getD 64 0 = 0 ∨
          (List.replicate 31 0 ++ [1] ++ (List.replicate 31 0 ++ [1]) ++ [0]).getD 64 0 = 1)) :=
  ⟨claim7.1 [] (by decide), claim7.2 _ (by decide)⟩

/-- Claim C8: decoding the 65 byte encoding of a successfully
constructed recoverable signature returns that signature, and
extracting the bare plain signature is exactly decoding the first 64
bytes of the encoding, dropping only the trailing id byte. -/
theorem claim8 :
    (∀ (rv sv v : Nat), 0 < rv → rv < n → 0 < sv → sv < n → (v = 0 ∨ v = 1) →
      RecSignature.try_from (RecSignature.new ⟨rv, sv⟩ ⟨v⟩).bytes =
        some (RecSignature.new ⟨rv, sv⟩ ⟨v⟩)) ∧
    (∀ (bytes : List Nat) (x : RecSignature), RecSignature.try_from bytes = some x →
      RecSignature.try_from x.bytes = some x) ∧
    (∀ x : RecSignature, x.toPlain = Signature.try_from (x.bytes.take 64)) ∧
    (∀ (rv sv v : Nat), 0 < rv → rv < n → 0 < sv → sv < n →
      (RecSignature.new ⟨rv, sv⟩ ⟨v⟩).toPlain = some ⟨rv, sv⟩) := by
  refine ⟨rec_try_from_new, ?_, fun x => rfl, ?_⟩
  · intro bytes x h
    obtain ⟨rv, sv, v, hx, hr0, hrn, hs0, hsn, hv⟩ := rec_try_from_inv h
    subst hx
    exact rec_try_from_new rv sv v hr0 hrn hs0 hsn hv
  · intro rv sv v hr0 hrn hs0 hsn
    unfold RecSignature.toPlain
    rw [new_take_64]
    exact try_from_encode ⟨rv, sv⟩ hr0 hrn hs0 hsn

/-- Witness for C8 at r = 1, s = 1, id 0 and its encoding. -/
theorem claim8_witness :
    RecSignature.try_from (RecSignature.new ⟨1, 1⟩ ⟨0⟩).bytes =
      some (RecSignature.new ⟨1, 1⟩ ⟨0⟩) ∧
    (RecSignature.new ⟨1, 1⟩ ⟨0⟩).toPlain = some ⟨1, 1⟩ :=
  ⟨claim8.1 1 1 0 (by decide) (by decide) (by decide) (by decide) (by decide),
   claim8.2.2.2 1 1 0 (by decide) (by decide) (by decide) (by decide)⟩

/-- Claim C9: every recoverable signature built by the public
constructors satisfies the invariant that byte 64 is 0 or 1 and each
32 byte half is a non-zero in-range scalar, and under that invariant
the recovery_id, r and s accessors and the r inversion inside recovery
never reach their panic branches. -/
theorem claim9 :
    (∀ (rv sv v : Nat), 0 < rv → rv < n → 0 < sv → sv < n → (v = 0 ∨ v = 1) →
      RecSigValid (RecSignature.new ⟨rv, sv⟩ ⟨v⟩)) ∧
    (∀ (bytes : List Nat) (x : RecSignature),
      RecSignature.try_from bytes = some x → RecSigValid x) ∧
    (∀ x : RecSignature, RecSigValid x →
      x.recovery_id.isSome = true ∧ x.r.isSome = true ∧ x.s.isSome = true ∧
        (invScalar (bytesToNat (x.bytes.take 32))).isSome = true) := by
  refine ⟨rec_new_valid, ?_, ?_⟩
  · intro bytes x h
    obtain ⟨rv, sv, v, hx, h1, h2, h3, h4, h5⟩ := rec_try_from_inv h
    subst hx
    exact rec_new_valid rv sv v h1 h2 h3 h4 h5
  · intro x hval
    obtain ⟨hlen, hr0, hrn, hs0, hsn, hid⟩ := hval
    refine ⟨?_, ?_, ?_, ?_⟩
    · rw [RecSignature.recovery_id]
      exact (id_new_isSome _).mpr hid
    · have hl32 : (x.bytes.take 32).length = 32 := by
        simp [List.length_take, hlen]
      rw [RecSignature.r, if_pos ⟨hl32, hr0, hrn⟩]
      rfl
    · have hl32 : ((x.bytes.drop 32).take 32).length = 32 := by
        simp [List.length_take, List.length_drop, hlen]
      rw [RecSignature.s, if_pos ⟨hl32, hs0, hsn⟩]
      rfl
    · have hne : bytesToNat (x.bytes.take 32) % n ≠ 0 := by
        rw [Nat.mod_eq_of_lt hrn]
        omega
      simp [invScalar, hne]

/-- Witness for C9 at r = 1, s = 1, id 0. -/
theorem claim9_witness :
    RecSigValid (RecSignature.new ⟨1, 1⟩ ⟨0⟩) ∧
    ((RecSignature.new ⟨1, 1⟩ ⟨0⟩).recovery_id.isSome = true ∧
      (RecSignature.new ⟨1, 1⟩ ⟨0⟩).r.isSome = true ∧
      (RecSignature.new ⟨1, 1⟩ ⟨0⟩).s.isSome = true ∧
      (invScalar (bytesToNat ((RecSignature.new ⟨1, 1⟩ ⟨0⟩).bytes.take 32))).isSome = true) :=
  ⟨claim9.1 1 1 0 (by decide) (by decide) (by decide) (by decide) (by decide),
   claim9.2.2 (RecSignature.new ⟨1, 1⟩ ⟨0⟩) (by decide)⟩

/-- Claim C10: converting a valid recovery Id to the generic ecdsa-core
RecoveryId and back yields the same Id, and the conversion always
clears the x-reduced flag. -/
theorem claim10 :
    (∀ id : Id, id.val = 0 ∨ id.val = 1 →
      Id.try_from_recovery_id id.to_recovery_id = some id) ∧
    (∀ id : Id, (id.to_recovery_id).is_x_reduced = false) := by
  constructor
  · rintro ⟨v⟩ hv
    rcases hv with rfl | rfl <;> rfl
  · intro id
    rfl

/-- Witness for C10 at Id 1. -/
theorem claim10_witness :
    Id.try_from_recovery_id (Id.to_recovery_id ⟨1⟩) = some ⟨1⟩ ∧
    ((Id.to_recovery_id ⟨1⟩).is_x_reduced = false) :=
  ⟨claim10.1 ⟨1⟩ (by decide), claim10.2 ⟨1⟩⟩

end P256
